import Mathlib

/-!
Verification of `check_elasticsearch_shards.py` (a Nagios monitoring plugin
for Elasticsearch shard counts and shard sizes).

Strings are modelled as `List Char`; Python floats are modelled as exact
rationals (`ℚ`), so the arithmetic facts proved here are about the decimal
values the program manipulates.  A Python run of a piece of code either
returns a value, calls `sys.exit code` (after printing a message), or raises
an uncaught exception; these outcomes are reified in small result types.
-/

/-- The whitespace characters recognised by Python's `str.split()`
(the ones relevant to catalog text). -/
def isSpaceC (c : Char) : Bool :=
  c = ' ' || c = '\t' || c = '\n' || c = '\r' || c = '\x0b' || c = '\x0c'

/-- ASCII decimal digit test. -/
def isDigitC (c : Char) : Bool :=
  '0' ≤ c && c ≤ '9'

/-- Characters that may appear in an unsigned decimal numeral (digits and the
decimal point). -/
def isNumC (c : Char) : Bool :=
  isDigitC c || c = '.'

/-- `leadsWith pat s` : `pat` occurs at the start of `s`. -/
def leadsWith : List Char → List Char → Bool
  | [], _ => true
  | _ :: _, [] => false
  | p :: ps, c :: cs => p == c && leadsWith ps cs

/-- `endsWithL s pat` models Python's `s.endswith(pat)`. -/
def endsWithL (s pat : List Char) : Bool :=
  leadsWith pat.reverse s.reverse

/-- `hasSub s pat` models Python's substring test `pat in s`. -/
def hasSub : List Char → List Char → Bool
  | s, pat =>
    leadsWith pat s ||
      match s with
      | [] => false
      | _ :: rest => hasSub rest pat

/-- Worker for `removeAll`; the fuel bounds the number of characters still
to be consumed, so `s.length` fuel always suffices. -/
def removeAllFuel (pat : List Char) : ℕ → List Char → List Char
  | _, [] => []
  | 0, c :: rest => c :: rest
  | fuel + 1, c :: rest =>
    if pat ≠ [] ∧ leadsWith pat (c :: rest) then
      removeAllFuel pat fuel (rest.drop (pat.length - 1))
    else
      c :: removeAllFuel pat fuel rest

/-- `removeAll pat s` models Python's `s.replace(pat, "")`: delete every
(left-to-right, non-overlapping) occurrence of `pat` from `s`. -/
def removeAll (pat s : List Char) : List Char :=
  removeAllFuel pat s.length s

/-- Worker for `pySplit`: `acc` holds the current field, reversed. -/
def pySplitGo : List Char → List Char → List (List Char)
  | [], acc => if acc = [] then [] else [acc.reverse]
  | c :: rest, acc =>
    if isSpaceC c then
      if acc = [] then pySplitGo rest [] else acc.reverse :: pySplitGo rest []
    else
      pySplitGo rest (c :: acc)

/-- Models Python's `s.split()` (no separator argument): split on runs of
whitespace, producing no empty fields. -/
def pySplit (s : List Char) : List (List Char) :=
  pySplitGo s []

/-- Models Python's `" ".join(words)`. -/
def joinSp : List (List Char) → List Char
  | [] => []
  | [w] => w
  | w :: ws => w ++ ' ' :: joinSp ws

/-- Models Python's `", ".join(words)`. -/
def joinComma : List (List Char) → List Char
  | [] => []
  | [w] => w
  | w :: ws => w ++ ',' :: ' ' :: joinComma ws

/-- Numeric value of an ASCII digit. -/
def digitVal (c : Char) : ℕ := c.toNat - 48

/-- `true` iff every character is an ASCII digit. -/
def allDigits (l : List Char) : Bool := l.all isDigitC

/-- Value of a digit string read in base 10. -/
def digitsToNat (l : List Char) : ℕ :=
  l.foldl (fun a c => 10 * a + digitVal c) 0

/-- Magnitude part of Python's `float()` on the plain decimal fragment:
`digits`, `digits.digits`, `digits.` or `.digits`.  (Exponents, `inf`, `nan`,
embedded underscores and surrounding whitespace, which Python also accepts,
lie outside the subset of inputs exercised by the program's size tokens and
by the claims below.) -/
def pyFloatMag (l : List Char) : Option ℚ :=
  match l.splitOn '.' with
  | [ip] =>
    if ip ≠ [] ∧ allDigits ip then some (digitsToNat ip : ℚ) else none
  | [ip, fp] =>
    if (ip ≠ [] ∨ fp ≠ []) ∧ allDigits ip ∧ allDigits fp then
      some ((digitsToNat ip : ℚ) + (digitsToNat fp : ℚ) / 10 ^ fp.length)
    else none
  | _ => none

/-- Models Python's `float()` builtin on the plain signed decimal fragment;
`none` is a raised `ValueError`. -/
def pyFloat (s : List Char) : Option ℚ :=
  match s with
  | '-' :: rest => (pyFloatMag rest).map (fun q => -q)
  | '+' :: rest => pyFloatMag rest
  | _ => pyFloatMag s

/-- Models Python's `int()` builtin on the plain signed decimal fragment;
`none` is a raised `ValueError`. -/
def pyInt (s : List Char) : Option ℤ :=
  match s with
  | '-' :: rest =>
    if rest ≠ [] ∧ allDigits rest then some (-(digitsToNat rest : ℤ)) else none
  | '+' :: rest =>
    if rest ≠ [] ∧ allDigits rest then some (digitsToNat rest : ℤ) else none
  | l =>
    if l ≠ [] ∧ allDigits l then some (digitsToNat l : ℤ) else none

/-- Outcome of `get_gb_size_from_string`: a returned value, the printed
`ERROR: unexpected. size string: ...` message followed by
`sys.exit(NAGIOS_CRITICAL)`, or an uncaught `ValueError` from `float()`. -/
inductive GbResult where
  | ok : ℚ → GbResult
  | exitCrit : GbResult
  | valueError : GbResult
deriving DecidableEq, Repr

def sufGb : List Char := ['g', 'b']
def sufTb : List Char := ['t', 'b']
def sufMb : List Char := ['m', 'b']
def sufKb : List Char := ['k', 'b']
def sufB : List Char := ['b']

/-- Translation of `get_gb_size_from_string` (lines 36–53 of the source):
dispatch on `str.endswith` in the order `gb`, `tb`, `mb`, `kb`, `b`; strip the
suffix with `str.replace(suffix, "")`; convert with `float()`; scale.  An
unrecognised suffix prints and exits CRITICAL; a failing `float()` raises. -/
def get_gb_size_from_string (s : List Char) : GbResult :=
  if endsWithL s sufGb then
    match pyFloat (removeAll sufGb s) with
    | none => .valueError
    | some v => .ok v
  else if endsWithL s sufTb then
    match pyFloat (removeAll sufTb s) with
    | none => .valueError
    | some v => .ok (v * 1000)
  else if endsWithL s sufMb then
    match pyFloat (removeAll sufMb s) with
    | none => .valueError
    | some v => .ok (v * 0.001)
  else if endsWithL s sufKb then
    match pyFloat (removeAll sufKb s) with
    | none => .valueError
    | some v => .ok (v * 0.001 * 0.001)
  else if endsWithL s sufB then
    match pyFloat (removeAll sufB s) with
    | none => .valueError
    | some v => .ok (v * 0.001 * 0.001 * 0.001)
  else
    .exitCrit

/-- An entry of the list built by `parse_index_info`: the triple
`[index, pri, pri_store_size]` of raw string fields (line 66 of the source).
`pri` stays a string here; the evaluators convert it with `int()`. -/
structure IndexRecord where
  index : List Char
  pri : List Char
  pri_store_size : List Char
deriving DecidableEq, Repr

def indexPat : List Char := (" index ").data
def closePat : List Char := (" close ").data

/-- The skip condition of line 58 of the source:
`line == '' or " index " in line or " close " in line`. -/
def skipLine (line : List Char) : Bool :=
  line == [] || hasSub line indexPat || hasSub line closePat

/-- The fields of a kept line: `" ".join(line.split())` followed by
`.split()` (lines 61–62 of the source). -/
def lineFields (line : List Char) : List (List Char) :=
  pySplit (joinSp (pySplit line))

/-- Per-line loop of `parse_index_info`; `none` is the uncaught `IndexError`
raised when a kept line has fewer than 8 whitespace-separated fields. -/
def parse_index_lines : List (List Char) → Option (List IndexRecord)
  | [] => some []
  | line :: rest =>
    if skipLine line then
      parse_index_lines rest
    else
      match (lineFields line).get? 2, (lineFields line).get? 3,
            (lineFields line).get? 7 with
      | some i, some p, some s =>
        match parse_index_lines rest with
        | some tail => some (⟨i, p, s⟩ :: tail)
        | none => none
      | _, _, _ => none

/-- Translation of `parse_index_info` (lines 55–67 of the source): split the
raw catalog text on newlines and process each line. -/
def parse_index_info (es_index_info : List Char) : Option (List IndexRecord) :=
  parse_index_lines (es_index_info.splitOn '\n')

/-- Outcome of a fallible fragment of the program: a returned value, an
explicit `sys.exit code` after printing `msg`, or an uncaught exception
(which makes the interpreter terminate with status 1 and a traceback). -/
inductive RunResult (α : Type) where
  | ok : α → RunResult α
  | exitWith : ℕ → List Char → RunResult α
  | exc : RunResult α
deriving DecidableEq, Repr

/-- Translation of `confirm_es_shard_count` (lines 69–76 of the source).
`es_host` and `es_port` are accepted and ignored, as in the source; `none`
from `int()` is an uncaught `ValueError`. -/
def confirm_es_shard_count (es_host es_port : List Char)
    (es_index_list : List IndexRecord) (min_shard_count : ℤ) :
    RunResult (List (List Char)) :=
  match es_index_list with
  | [] => .ok []
  | l :: rest =>
    match pyInt l.pri with
    | none => .exc
    | some number_of_shards =>
      match confirm_es_shard_count es_host es_port rest min_shard_count with
      | .ok tail =>
        .ok (if number_of_shards < min_shard_count then l.index :: tail else tail)
      | e => e

def errSizePat : List Char := ("ERROR: unexpected. size string: ").data

/-- Translation of `confirm_es_shard_size` (lines 78–87 of the source).
Per record: `int()` on the shard count (may raise), the size parser (may
print and exit CRITICAL, or raise), then the division (raises
`ZeroDivisionError` when the count is 0); the average is compared strictly
against `max_shard_size`. -/
def confirm_es_shard_size (es_host es_port : List Char)
    (es_index_list : List IndexRecord) (max_shard_size : ℚ) :
    RunResult (List (List Char)) :=
  match es_index_list with
  | [] => .ok []
  | i :: rest =>
    match pyInt i.pri with
    | none => .exc
    | some number_of_shards =>
      match get_gb_size_from_string i.pri_store_size with
      | .exitCrit => .exitWith 2 (errSizePat ++ i.pri_store_size)
      | .valueError => .exc
      | .ok sz =>
        if number_of_shards = 0 then .exc
        else
          let avg_shard_size_gb := sz / (number_of_shards : ℚ)
          match confirm_es_shard_size es_host es_port rest max_shard_size with
          | .ok tail =>
            .ok (if avg_shard_size_gb > max_shard_size then i.index :: tail else tail)
          | e => e

/-- Worker for `natToStr`; the fuel bounds the number of digits, so `n + 1`
fuel always suffices. -/
def natToStrGo : ℕ → ℕ → List Char
  | 0, _ => []
  | fuel + 1, n =>
    if n < 10 then [Char.ofNat (48 + n)]
    else natToStrGo fuel (n / 10) ++ [Char.ofNat (48 + n % 10)]

/-- Decimal rendering of a natural number (for the `%d` format items). -/
def natToStr (n : ℕ) : List Char :=
  natToStrGo (n + 1) n

/-- Decimal rendering of an integer (for the `%d` format items). -/
def intToStr (z : ℤ) : List Char :=
  if z < 0 then '-' :: natToStr z.natAbs else natToStr z.toNat

/-- Outcome of the `__main__` block: an explicit `sys.exit code` after
printing `msg`, or termination by an uncaught exception (interpreter
status 1, stack trace). -/
inductive MainResult where
  | exited : ℕ → List Char → MainResult
  | crashed : MainResult
deriving DecidableEq, Repr

/-- Result of the external catalog fetch (client construction plus
`es.cat.indices(...)`, lines 114–123 of the source): the raw tabular text,
or a transport/TLS/auth exception, which the source does not catch. -/
inductive FetchResult where
  | ok : List Char → FetchResult
  | err : FetchResult

def critSize1a : List Char := ("CRITICAL: Index ").data
def critSize1b : List Char := (" has shards bigger than ").data
def critSize1c : List Char := (" GB!").data
def critSizeNa : List Char := ("CRITICAL: ").data
def critSizeNb : List Char := (" indices have shards bigger than ").data
def critSizeNc : List Char := (" GB!\n").data
def okSizeA : List Char := ("OK: All shards for indices with pattern \"").data
def okSizeB : List Char := ("\" are less then ").data
def okSizeC : List Char := (" GB.").data
def critCnt1a : List Char := ("CRITICAL: Index ").data
def critCnt1b : List Char :=
  (" has only 1 primary shard which is less then minimum shard count ").data
def critCnt1c : List Char := ("!").data
def critCntNa : List Char := ("CRITICAL: ").data
def critCntNb : List Char :=
  (" indices have less primary shards then minimum shard count ").data
def critCntNc : List Char := ("!\n").data
def okCntA : List Char := ("OK: All shards or indices with pattern \"").data
def okCntB : List Char := ("\" have at least ").data
def okCntC : List Char := (" shard count.").data

/-- Reporting step for `action == "check_shard_size"` (lines 127–136 of the
source).  `showF` renders a Python float with `%s`/`%d`; it is a parameter
because the exact float-to-string rendering is the one aspect of the program
not modelled by exact rationals. -/
def report_shard_size (showF : ℚ → List Char) (es_index : List Char)
    (failed : List (List Char)) (max_shard_size : ℚ) : MainResult :=
  if failed.length ≠ 0 then
    .exited 2
      (if failed.length = 1 then
        critSize1a ++ failed.headD [] ++ critSize1b ++
          showF max_shard_size ++ critSize1c
      else if failed.length > 1 then
        critSizeNa ++ natToStr failed.length ++ critSizeNb ++
          showF max_shard_size ++ critSizeNc ++ joinComma failed
      else [])
  else
    .exited 0 (okSizeA ++ es_index ++ okSizeB ++ showF max_shard_size ++ okSizeC)

/-- Reporting step for `action == "check_shard_count"` (lines 138–147 of the
source). -/
def report_shard_count (es_index : List Char)
    (failed : List (List Char)) (min_shard_count : ℤ) : MainResult :=
  if failed.length ≠ 0 then
    .exited 2
      (if failed.length = 1 then
        critCnt1a ++ failed.headD [] ++ critCnt1b ++
          intToStr min_shard_count ++ critCnt1c
      else if failed.length > 1 then
        critCntNa ++ natToStr failed.length ++ critCntNb ++
          intToStr min_shard_count ++ critCntNc ++ joinComma failed
      else [])
  else
    .exited 0 (okCntA ++ es_index ++ okCntB ++ intToStr min_shard_count ++ okCntC)

/-- The command-line arguments after `parse_args()` (all strings, as in the
source; `argparse` restricts `action` to the two listed choices). -/
structure Args where
  es_host : List Char
  es_port : List Char
  es_index : List Char
  action : List Char
  min_shard_count : List Char
  max_shard_size : List Char

def actionSize : List Char := ("check_shard_size").data
def actionCount : List Char := ("check_shard_count").data

/-- Translation of the `__main__` block (lines 103–147 of the source), with
the external HTTP fetch abstracted as a `FetchResult`:
`int(min_shard_count)`, then the size parser on `max_shard_size`, then the
fetch, then `parse_index_info`, then the evaluator selected by `action`,
then the reporting step.  Each uncaught exception yields `crashed`; were
`action` neither recognised choice, control would fall off the end of the
script and the interpreter would exit 0 (unreachable under `argparse`). -/
def main_run (showF : ℚ → List Char) (args : Args) (fetch : FetchResult) :
    MainResult :=
  match pyInt args.min_shard_count with
  | none => .crashed
  | some min_shard_count =>
    match get_gb_size_from_string args.max_shard_size with
    | .valueError => .crashed
    | .exitCrit => .exited 2 (errSizePat ++ args.max_shard_size)
    | .ok max_shard_size =>
      match fetch with
      | .err => .crashed
      | .ok raw =>
        match parse_index_info raw with
        | none => .crashed
        | some recs =>
          if args.action = actionSize then
            match confirm_es_shard_size args.es_host args.es_port recs
                max_shard_size with
            | .exc => .crashed
            | .exitWith c m => .exited c m
            | .ok failed =>
              report_shard_size showF args.es_index failed max_shard_size
          else if args.action = actionCount then
            match confirm_es_shard_count args.es_host args.es_port recs
                min_shard_count with
            | .exc => .crashed
            | .exitWith c m => .exited c m
            | .ok failed =>
              report_shard_count args.es_index failed min_shard_count
          else
            .exited 0 []

/-! ### Specification-side definitions -/

/-- The conversion table of the specification: suffix paired with the factor
applied to the numeric portion (canonical unit gigabytes, SI scale). -/
def convTable : List (List Char × ℚ) :=
  [(sufTb, 1000), (sufGb, 1), (sufMb, 0.001), (sufKb, 0.000001),
   (sufB, 0.000000001)]

/-- The average shard size of a record in GB, when all conversions succeed
and the shard count is nonzero. -/
def avgShardSize (r : IndexRecord) : Option ℚ :=
  match pyInt r.pri, get_gb_size_from_string r.pri_store_size with
  | some n, .ok q => if n = 0 then none else some (q / (n : ℚ))
  | _, _ => none

/-- Well-formedness of a record for the count evaluator: the shard-count
field is an integer numeral. -/
def WFCount (r : IndexRecord) : Prop :=
  (pyInt r.pri).isSome = true

/-- Well-formedness of a record for the size evaluator: the shard-count
field is a positive integer numeral and the size token parses. -/
def WFSize (r : IndexRecord) : Prop :=
  ∃ n q, pyInt r.pri = some n ∧ 0 < n ∧
    get_gb_size_from_string r.pri_store_size = GbResult.ok q

/-- `true` iff the run ended in an explicit `sys.exit` (as opposed to an
uncaught exception). -/
def isExplicitExit : MainResult → Bool
  | .exited _ _ => true
  | .crashed => false

/-! ### Helper lemmas on strings -/

theorem leadsWith_self_append (x y : List Char) : leadsWith x (x ++ y) = true := by
  induction x with
  | nil => rfl
  | cons a t ih => simp [leadsWith, ih]

theorem removeAllFuel_of_headDiff (p : Char) (ps : List Char) (d : List Char) :
    ∀ fuel : ℕ, (d ++ p :: ps).length ≤ fuel →
    (∀ c ∈ d, (p == c) = false) →
    removeAllFuel (p :: ps) fuel (d ++ p :: ps) = d := by
  induction d with
  | nil =>
    intro fuel hfuel hp
    rw [List.nil_append] at hfuel ⊢
    obtain ⟨f, rfl⟩ : ∃ f, fuel = f + 1 := by
      cases fuel with
      | zero => simp at hfuel
      | succ f => exact ⟨f, rfl⟩
    rw [removeAllFuel]
    have hc : leadsWith (p :: ps) (p :: ps) = true := by
      have := leadsWith_self_append (p :: ps) []
      rwa [List.append_nil] at this
    rw [if_pos ⟨List.cons_ne_nil p ps, hc⟩]
    have hlen : (p :: ps).length - 1 = ps.length := by simp
    rw [hlen, List.drop_length]
    cases f <;> rfl
  | cons c dt ih =>
    intro fuel hfuel hp
    obtain ⟨f, rfl⟩ : ∃ f, fuel = f + 1 := by
      cases fuel with
      | zero => simp at hfuel
      | succ f => exact ⟨f, rfl⟩
    rw [List.cons_append, removeAllFuel]
    have hlw : leadsWith (p :: ps) (c :: (dt ++ p :: ps)) = false := by
      simp [leadsWith, hp c (List.mem_cons_self c dt)]
    rw [if_neg (by simp [hlw])]
    rw [ih f (by simp only [List.length_append, List.length_cons] at hfuel ⊢; omega)
      (fun x hx => hp x (List.mem_cons_of_mem c hx))]

theorem removeAll_of_headDiff (p : Char) (ps d : List Char)
    (hp : ∀ c ∈ d, (p == c) = false) :
    removeAll (p :: ps) (d ++ p :: ps) = d :=
  removeAllFuel_of_headDiff p ps d _ le_rfl hp

theorem ends2 (d : List Char) (a b x y : Char) :
    endsWithL (d ++ [a, b]) [x, y] = ((y == b) && (x == a)) := by
  simp [endsWithL, leadsWith, List.reverse_append]

theorem ends1 (d : List Char) (a x : Char) :
    endsWithL (d ++ [a]) [x] = (x == a) := by
  simp [endsWithL, leadsWith, List.reverse_append]

theorem beq_false_of_isNumC (x c : Char) (hc : isNumC c = true)
    (hx : isNumC x = false) : (x == c) = false := by
  cases h : x == c with
  | false => rfl
  | true =>
    have hxc : x = c := eq_of_beq h
    subst hxc
    rw [hc] at hx
    cases hx

/-! ### C1: the size conversion table -/

/-- C1: for every size token consisting of a non-negative decimal numeral
immediately followed by one of the lowercase suffixes `tb`, `gb`, `mb`, `kb`,
`b`, `get_gb_size_from_string` returns the numeric portion times the factor
of the conversion table (`tb` ×1000, `gb` ×1, `mb` ×0.001, `kb` ×0.000001,
`b` ×0.000000001); in particular suffix matching is order-sensitive, so
`"3tb"` yields 3000 and is never misparsed via the bare `b` suffix. -/
theorem claim_C1_size_conversion_table (d suf : List Char) (q fac : ℚ)
    (hne : d ≠ []) (hnum : ∀ c ∈ d, isNumC c = true)
    (hq : pyFloat d = some q)
    (hmem : (suf, fac) ∈ convTable) :
    get_gb_size_from_string (d ++ suf) = GbResult.ok (q * fac) := by
  obtain ⟨dl, dt, hdrev⟩ : ∃ x t, d.reverse = x :: t := by
    cases hd : d.reverse with
    | nil => exact absurd (List.reverse_eq_nil_iff.mp hd) hne
    | cons x t => exact ⟨x, t, rfl⟩
  have hdl : isNumC dl = true :=
    hnum dl (List.mem_reverse.mp (hdrev ▸ List.mem_cons_self dl dt))
  simp only [convTable, List.mem_cons, List.not_mem_nil, or_false,
    Prod.mk.injEq] at hmem
  rcases hmem with ⟨h1, h2⟩ | ⟨h1, h2⟩ | ⟨h1, h2⟩ | ⟨h1, h2⟩ | ⟨h1, h2⟩ <;>
    subst h1 <;> subst h2
  · have egb : endsWithL (d ++ sufTb) sufGb = false :=
      (ends2 d 't' 'b' 'g' 'b').trans (by decide)
    have etb : endsWithL (d ++ sufTb) sufTb = true :=
      (ends2 d 't' 'b' 't' 'b').trans (by decide)
    have hrm : removeAll sufTb (d ++ sufTb) = d :=
      removeAll_of_headDiff 't' ['b'] d
        (fun c hc => beq_false_of_isNumC 't' c (hnum c hc) (by decide))
    simp [get_gb_size_from_string, egb, etb, hrm, hq]
  · have egb : endsWithL (d ++ sufGb) sufGb = true :=
      (ends2 d 'g' 'b' 'g' 'b').trans (by decide)
    have hrm : removeAll sufGb (d ++ sufGb) = d :=
      removeAll_of_headDiff 'g' ['b'] d
        (fun c hc => beq_false_of_isNumC 'g' c (hnum c hc) (by decide))
    simp [get_gb_size_from_string, egb, hrm, hq]
  · have egb : endsWithL (d ++ sufMb) sufGb = false :=
      (ends2 d 'm' 'b' 'g' 'b').trans (by decide)
    have etb : endsWithL (d ++ sufMb) sufTb = false :=
      (ends2 d 'm' 'b' 't' 'b').trans (by decide)
    have emb : endsWithL (d ++ sufMb) sufMb = true :=
      (ends2 d 'm' 'b' 'm' 'b').trans (by decide)
    have hrm : removeAll sufMb (d ++ sufMb) = d :=
      removeAll_of_headDiff 'm' ['b'] d
        (fun c hc => beq_false_of_isNumC 'm' c (hnum c hc) (by decide))
    simp [get_gb_size_from_string, egb, etb, emb, hrm, hq]
  · have egb : endsWithL (d ++ sufKb) sufGb = false :=
      (ends2 d 'k' 'b' 'g' 'b').trans (by decide)
    have etb : endsWithL (d ++ sufKb) sufTb = false :=
      (ends2 d 'k' 'b' 't' 'b').trans (by decide)
    have emb : endsWithL (d ++ sufKb) sufMb = false :=
      (ends2 d 'k' 'b' 'm' 'b').trans (by decide)
    have ekb : endsWithL (d ++ sufKb) sufKb = true :=
      (ends2 d 'k' 'b' 'k' 'b').trans (by decide)
    have hrm : removeAll sufKb (d ++ sufKb) = d :=
      removeAll_of_headDiff 'k' ['b'] d
        (fun c hc => beq_false_of_isNumC 'k' c (hnum c hc) (by decide))
    simp only [get_gb_size_from_string, egb, etb, emb, ekb, hrm, hq,
      Bool.false_eq_true, if_false, if_true]
    norm_num [mul_assoc]
  · have egb : endsWithL (d ++ sufB) sufGb = false := by
      simp [endsWithL, sufB, sufGb, leadsWith, hdrev,
        beq_false_of_isNumC 'g' dl hdl (by decide)]
    have etb : endsWithL (d ++ sufB) sufTb = false := by
      simp [endsWithL, sufB, sufTb, leadsWith, hdrev,
        beq_false_of_isNumC 't' dl hdl (by decide)]
    have emb : endsWithL (d ++ sufB) sufMb = false := by
      simp [endsWithL, sufB, sufMb, leadsWith, hdrev,
        beq_false_of_isNumC 'm' dl hdl (by decide)]
    have ekb : endsWithL (d ++ sufB) sufKb = false := by
      simp [endsWithL, sufB, sufKb, leadsWith, hdrev,
        beq_false_of_isNumC 'k' dl hdl (by decide)]
    have eb : endsWithL (d ++ sufB) sufB = true :=
      (ends1 d 'b' 'b').trans (by decide)
    have hrm : removeAll sufB (d ++ sufB) = d :=
      removeAll_of_headDiff 'b' [] d
        (fun c hc => beq_false_of_isNumC 'b' c (hnum c hc) (by decide))
    simp only [get_gb_size_from_string, egb, etb, emb, ekb, eb, hrm, hq,
      Bool.false_eq_true, if_false, if_true]
    norm_num [mul_assoc]

/-- Witness for C1 at the token `"3tb"`: the result is 3 × 1000. -/
theorem claim_C1_size_conversion_table_witness :
    get_gb_size_from_string (("3tb").data) = GbResult.ok (3 * 1000) :=
  claim_C1_size_conversion_table (("3").data) sufTb 3 1000 (by decide)
    (by decide) (by decide) (by decide)

/-! ### C9: host and port do not influence the evaluators -/

/-- C9: for any two calls with the same record sequence and the same
threshold but different `es_host` and `es_port` arguments, both evaluators
return identical results: host and port have no influence. -/
theorem claim_C9_host_port_irrelevant (h1 p1 h2 p2 : List Char)
    (records : List IndexRecord) (minc : ℤ) (maxs : ℚ) :
    confirm_es_shard_count h1 p1 records minc =
      confirm_es_shard_count h2 p2 records minc ∧
    confirm_es_shard_size h1 p1 records maxs =
      confirm_es_shard_size h2 p2 records maxs := by
  constructor
  · induction records with
    | nil => rfl
    | cons r rest ih => simp only [confirm_es_shard_count, ih]
  · induction records with
    | nil => rfl
    | cons r rest ih => simp only [confirm_es_shard_size, ih]

/-! ### C3: the count evaluator is a filter -/

/-- C3: on well-formed records, `confirm_es_shard_count` returns exactly the
names of the records whose primary-shard count is strictly below the
minimum, in input order (hence the empty list when nothing violates). -/
theorem claim_C3_shard_count_filter (es_host es_port : List Char)
    (records : List IndexRecord) (minc : ℤ)
    (h : ∀ r ∈ records, WFCount r) :
    confirm_es_shard_count es_host es_port records minc =
      RunResult.ok ((records.filter
        (fun r => decide ((pyInt r.pri).getD 0 < minc))).map IndexRecord.index) := by
  induction records with
  | nil => rfl
  | cons r rest ih =>
    obtain ⟨n, hn⟩ := Option.isSome_iff_exists.mp (h r (List.mem_cons_self r rest))
    rw [List.filter_cons]
    simp only [confirm_es_shard_count, hn,
      ih (fun x hx => h x (List.mem_cons_of_mem r hx)), Option.getD_some]
    by_cases hc : n < minc
    · simp [hc]
    · simp [hc]

/-- Witness for C3 on the spec's example: counts 1 and 5 against minimum 3
select exactly the first index. -/
theorem claim_C3_shard_count_filter_witness :
    confirm_es_shard_count (("eshost").data) (("9200").data)
      [⟨("idx1").data, ("1").data, ("10gb").data⟩,
       ⟨("idx2").data, ("5").data, ("10gb").data⟩] 3 =
      RunResult.ok [("idx1").data] := by
  rw [claim_C3_shard_count_filter (("eshost").data) (("9200").data) _ 3 (by
    intro r hr
    unfold WFCount
    fin_cases hr <;> decide)]
  decide

/-! ### C2: the size evaluator is a filter -/

/-- C2: on well-formed records, `confirm_es_shard_size` returns exactly the
names of the records whose average primary-shard size (parsed size divided
by shard count) strictly exceeds the bound, in input order (hence the empty
list when nothing violates). -/
theorem claim_C2_shard_size_filter (es_host es_port : List Char)
    (records : List IndexRecord) (maxs : ℚ)
    (h : ∀ r ∈ records, WFSize r) :
    confirm_es_shard_size es_host es_port records maxs =
      RunResult.ok ((records.filter
        (fun r => decide ((avgShardSize r).getD 0 > maxs))).map IndexRecord.index) := by
  induction records with
  | nil => rfl
  | cons r rest ih =>
    obtain ⟨n, q, hn, hpos, hq⟩ := h r (List.mem_cons_self r rest)
    have hn0 : ¬(n = 0) := by omega
    have havg : avgShardSize r = some (q / (n : ℚ)) := by
      simp [avgShardSize, hn, hq, hn0]
    rw [List.filter_cons]
    simp only [confirm_es_shard_size, hn, hq,
      ih (fun x hx => h x (List.mem_cons_of_mem r hx)), havg, Option.getD_some,
      if_neg hn0]
    by_cases hc : q / (n : ℚ) > maxs
    · simp [hc]
    · simp [hc]

/-- Witness for C2 on the spec's example: one index with 2 shards and
`"100gb"` of primary storage against a 40 GB bound violates (average 50). -/
theorem claim_C2_shard_size_filter_witness :
    confirm_es_shard_size (("eshost").data) (("9200").data)
      [⟨("idx1").data, ("2").data, ("100gb").data⟩] 40 =
      RunResult.ok [("idx1").data] := by
  have hp : pyInt (("2").data) = some (2 : ℤ) := by decide
  have hg : get_gb_size_from_string (("100gb").data) = GbResult.ok 100 := by
    decide
  have havg : avgShardSize ⟨("idx1").data, ("2").data, ("100gb").data⟩ =
      some 50 := by
    simp only [avgShardSize, hp, hg]
    norm_num
  rw [claim_C2_shard_size_filter (("eshost").data) (("9200").data) _ 40 (by
    intro r hr
    rw [List.mem_singleton] at hr
    subst hr
    exact ⟨2, 100, hp, by norm_num, hg⟩)]
  simp [List.filter_cons, havg, (by decide : ((50 : ℚ) > 40))]

/-! ### C4 and C10: the catalog parser -/

theorem parse_index_lines_eq (lines : List (List Char))
    (h : ∀ line ∈ lines, skipLine line = false → 8 ≤ (lineFields line).length) :
    parse_index_lines lines = some (lines.filterMap fun line =>
      if skipLine line then none
      else some ⟨(lineFields line).getD 2 [], (lineFields line).getD 3 [],
        (lineFields line).getD 7 []⟩) := by
  induction lines with
  | nil => rfl
  | cons line rest ih =>
    rw [parse_index_lines, List.filterMap_cons]
    by_cases hs : skipLine line = true
    · simp [hs, ih (fun x hx hk => h x (List.mem_cons_of_mem _ hx) hk)]
    · have hsf : skipLine line = false := by simpa using hs
      have hlen : 8 ≤ (lineFields line).length :=
        h line (List.mem_cons_self _ _) hsf
      cases hg2 : (lineFields line).get? 2 with
      | none => rw [List.get?_eq_none] at hg2; omega
      | some x2 =>
      cases hg3 : (lineFields line).get? 3 with
      | none => rw [List.get?_eq_none] at hg3; omega
      | some x3 =>
      cases hg7 : (lineFields line).get? 7 with
      | none => rw [List.get?_eq_none] at hg7; omega
      | some x7 =>
      rw [List.get?_eq_getElem?] at hg2 hg3 hg7
      simp [hsf, hg2, hg3, hg7,
        ih (fun x hx hk => h x (List.mem_cons_of_mem _ hx) hk)]

/-- C4: the catalog parser skips empty lines and lines containing `" index "`
or `" close "`; every other line is collapsed/split on whitespace and yields
a record made of fields 2 (name), 3 (primary-shard count) and 7
(primary-store size token), in input line order. -/
theorem claim_C4_catalog_parse (text : List Char)
    (h : ∀ line ∈ text.splitOn '\n', skipLine line = false →
      8 ≤ (lineFields line).length) :
    parse_index_info text = some ((text.splitOn '\n').filterMap fun line =>
      if skipLine line then none
      else some ⟨(lineFields line).getD 2 [], (lineFields line).getD 3 [],
        (lineFields line).getD 7 []⟩) :=
  parse_index_lines_eq (text.splitOn '\n') h

/-- Witness for C4: a header line (contains `" index "`), a closed-index
line (contains `" close "`), a trailing empty line, and a data line with
repeated internal whitespace are handled as the claim states. -/
theorem claim_C4_catalog_parse_witness :
    parse_index_info (("health status index pri rep docs.count store.size pri.store.size creation.date.string\ngreen open idx1 2 1 100 10gb 10gb 2020-01-01\ngreen  open   idx2  3  1  100  6gb  6gb  2020-01-02\ngreen close idx3\n").data) =
      some [⟨("idx1").data, ("2").data, ("10gb").data⟩,
            ⟨("idx2").data, ("3").data, ("6gb").data⟩] := by
  rw [claim_C4_catalog_parse _ (by decide)]
  decide

theorem parse_index_lines_none (line : List Char) (h2 : skipLine line = false)
    (h3 : (lineFields line).length < 8) :
    ∀ lines : List (List Char), line ∈ lines → parse_index_lines lines = none := by
  intro lines
  induction lines with
  | nil => intro h; cases h
  | cons a rest ih =>
    intro hmem
    rw [parse_index_lines]
    by_cases hs : skipLine a = true
    · rcases List.mem_cons.mp hmem with rfl | hr
      · rw [h2] at hs; cases hs
      · simp [hs, ih hr]
    · have hsf : skipLine a = false := by simpa using hs
      rcases List.mem_cons.mp hmem with rfl | hr
      · have hn7 : (lineFields line).get? 7 = none :=
          List.get?_eq_none.mpr (by omega)
        rw [List.get?_eq_getElem?] at hn7
        cases hg2 : (lineFields line)[2]? <;>
          cases hg3 : (lineFields line)[3]? <;>
            simp [hsf, hn7, hg2, hg3]
      · cases hg2 : (lineFields a)[2]? <;>
          cases hg3 : (lineFields a)[3]? <;>
            cases hg7 : (lineFields a)[7]? <;>
              simp [hsf, hg2, hg3, hg7, ih hr]

/-- C10: on any catalog text containing a kept line (non-empty, no
`" index "`, no `" close "`) with fewer than 8 whitespace-separated fields,
the parser's field accesses fail (Python `IndexError`), so the total
embedding returns `none` instead of a record sequence. -/
theorem claim_C10_short_line_fails (text line : List Char)
    (h1 : line ∈ text.splitOn '\n') (h2 : skipLine line = false)
    (h3 : (lineFields line).length < 8) :
    parse_index_info text = none :=
  parse_index_lines_none line h2 h3 (text.splitOn '\n') h1

/-- Witness for C10: a kept line with only three fields makes the parser
fail. -/
theorem claim_C10_short_line_fails_witness :
    parse_index_info (("green open idx1").data) = none :=
  claim_C10_short_line_fails (("green open idx1").data)
    (("green open idx1").data) (by decide) (by decide) (by decide)

/-! ### C5: error handling of the size parser -/

/-- Counterexample to C5: `"xgb"` ends in the recognised suffix `gb` but its
numeric portion `"x"` fails to parse, and the code then raises an uncaught
`ValueError` from `float()` (interpreter status 1, traceback) instead of
printing a message and calling `sys.exit` with the CRITICAL code. -/
theorem claim_C5_fail_closed_cex :
    get_gb_size_from_string (("xgb").data) = GbResult.valueError ∧
      GbResult.valueError ≠ GbResult.exitCrit := by
  decide

/-- C5 (amended): only a string ending in none of the recognised suffixes
makes the size parser print its error message and exit with the CRITICAL
code; a string with a recognised suffix whose numeric portion fails to
parse instead raises an uncaught `ValueError`, as `"xgb"` shows. -/
theorem claim_C5_fail_closed_amended (s : List Char)
    (h : endsWithL s sufGb = false ∧ endsWithL s sufTb = false ∧
      endsWithL s sufMb = false ∧ endsWithL s sufKb = false ∧
      endsWithL s sufB = false) :
    get_gb_size_from_string s = GbResult.exitCrit ∧
      get_gb_size_from_string (("xgb").data) = GbResult.valueError := by
  obtain ⟨h1, h2, h3, h4, h5⟩ := h
  exact ⟨by simp [get_gb_size_from_string, h1, h2, h3, h4, h5], by decide⟩

/-- Witness for the amended C5 at `"abc"` (no recognised suffix). -/
theorem claim_C5_fail_closed_amended_witness :
    get_gb_size_from_string (("abc").data) = GbResult.exitCrit ∧
      get_gb_size_from_string (("xgb").data) = GbResult.valueError :=
  claim_C5_fail_closed_amended (("abc").data) (by decide)

/-! ### C7: zero shard counts are not rejected -/

/-- Counterexample to C7: on a well-formed catalog line whose shard-count
field is `"0"`, the parser emits a record with primary-shard count 0 (no
validation), and the size evaluator then raises at the division
(`ZeroDivisionError`) — the division error is propagated, not prevented. -/
theorem claim_C7_positive_count_cex :
    parse_index_info (("green open idx0 0 1 100 5gb 5gb 2020-01-01").data) =
      some [⟨("idx0").data, ("0").data, ("5gb").data⟩] ∧
    pyInt (("0").data) = some 0 ∧
    confirm_es_shard_size (("h").data) (("9200").data)
      [⟨("idx0").data, ("0").data, ("5gb").data⟩] 50 = RunResult.exc := by
  decide

/-- C7 (amended): the catalog parser does not validate the shard-count
field; whenever a record whose count field parses to 0 (and whose size
token parses) reaches `confirm_es_shard_size`, the division raises
(`ZeroDivisionError`), modelled as the exception outcome. -/
theorem claim_C7_positive_count_amended (es_host es_port : List Char)
    (r : IndexRecord) (rest : List IndexRecord) (maxs q : ℚ)
    (h0 : pyInt r.pri = some 0)
    (hs : get_gb_size_from_string r.pri_store_size = GbResult.ok q) :
    confirm_es_shard_size es_host es_port (r :: rest) maxs = RunResult.exc := by
  simp [confirm_es_shard_size, h0, hs]

/-- Witness for the amended C7 on the record parsed from the
counterexample's catalog line. -/
theorem claim_C7_positive_count_amended_witness :
    confirm_es_shard_size (("h").data) (("9200").data)
      [⟨("idx0").data, ("0").data, ("5gb").data⟩, ⟨("idx1").data, ("2").data,
        ("4gb").data⟩] 50 = RunResult.exc :=
  claim_C7_positive_count_amended (("h").data) (("9200").data)
    ⟨("idx0").data, ("0").data, ("5gb").data⟩
    [⟨("idx1").data, ("2").data, ("4gb").data⟩] 50 5 (by decide) (by decide)

/-! ### C6: exit codes of the program -/

theorem confirm_count_no_exit (es_host es_port : List Char)
    (recs : List IndexRecord) (minc : ℤ) (c : ℕ) (m : List Char)
    (h : confirm_es_shard_count es_host es_port recs minc =
      RunResult.exitWith c m) : False := by
  induction recs with
  | nil => cases h
  | cons r rest ih =>
    rw [confirm_es_shard_count] at h
    cases hp : pyInt r.pri with
    | none => rw [hp] at h; cases h
    | some n =>
      rw [hp] at h
      cases hrec : confirm_es_shard_count es_host es_port rest minc with
      | ok tail => rw [hrec] at h; cases h
      | exitWith c' m' =>
        rw [hrec] at h
        cases h
        exact ih hrec
      | exc => rw [hrec] at h; cases h

theorem confirm_size_exit_code (es_host es_port : List Char)
    (recs : List IndexRecord) (maxs : ℚ) (c : ℕ) (m : List Char)
    (h : confirm_es_shard_size es_host es_port recs maxs =
      RunResult.exitWith c m) : c = 2 := by
  induction recs with
  | nil => cases h
  | cons r rest ih =>
    rw [confirm_es_shard_size] at h
    cases hp : pyInt r.pri with
    | none => rw [hp] at h; cases h
    | some n =>
      rw [hp] at h
      cases hg : get_gb_size_from_string r.pri_store_size with
      | ok sz =>
        rw [hg] at h
        by_cases hn : n = 0
        · simp [hn] at h
        · cases hrec : confirm_es_shard_size es_host es_port rest maxs with
          | ok tail =>
            rw [hrec] at h
            simp [hn] at h
          | exitWith c' m' =>
            rw [hrec] at h
            simp [hn] at h
            obtain ⟨hc, hm⟩ := h
            subst hc
            subst hm
            exact ih hrec
          | exc =>
            rw [hrec] at h
            simp [hn] at h
      | exitCrit =>
        rw [hg] at h
        cases h
        rfl
      | valueError => rw [hg] at h; cases h

theorem report_size_code (showF : ℚ → List Char) (es_index : List Char)
    (failed : List (List Char)) (maxs : ℚ) (c : ℕ) (m : List Char)
    (h : report_shard_size showF es_index failed maxs =
      MainResult.exited c m) : c = 0 ∨ c = 2 := by
  rw [report_shard_size] at h
  by_cases hl : failed.length ≠ 0
  · rw [if_pos hl] at h
    cases h
    right; rfl
  · rw [if_neg hl] at h
    cases h
    left; rfl

theorem report_count_code (es_index : List Char)
    (failed : List (List Char)) (minc : ℤ) (c : ℕ) (m : List Char)
    (h : report_shard_count es_index failed minc =
      MainResult.exited c m) : c = 0 ∨ c = 2 := by
  rw [report_shard_count] at h
  by_cases hl : failed.length ≠ 0
  · rw [if_pos hl] at h
    cases h
    right; rfl
  · rw [if_neg hl] at h
    cases h
    left; rfl

/-- Counterexample to C6: with `--max_shard_size xgb` (a recognised suffix
with an unparseable numeral), the run terminates by an uncaught
`ValueError` — the interpreter exits with status 1 and a traceback, not
with an explicit `sys.exit` of 0 or 2 — so not every run of the program
exits with code 0 or 2. -/
theorem claim_C6_exit_codes_cex :
    main_run (fun _ => []) ⟨("h").data, ("9200").data, [], actionSize,
      ("3").data, ("xgb").data⟩ FetchResult.err = MainResult.crashed ∧
    isExplicitExit (main_run (fun _ => []) ⟨("h").data, ("9200").data, [],
      actionSize, ("3").data, ("xgb").data⟩ FetchResult.err) = false := by
  decide

/-- C6 (amended): every explicit `sys.exit` of the program carries code 0
(with the OK message) or 2; codes 1 (WARNING) and 3 (UNKNOWN) are never
passed to `sys.exit`.  Runs failing on transport, response parsing, numeric
conversion or a zero shard count instead terminate by an uncaught exception
(interpreter status 1), modelled as `MainResult.crashed`. -/
theorem claim_C6_exit_codes_amended (showF : ℚ → List Char) (args : Args)
    (fetch : FetchResult) (c : ℕ) (m : List Char)
    (h : main_run showF args fetch = MainResult.exited c m) :
    c = 0 ∨ c = 2 := by
  rw [main_run] at h
  cases hmin : pyInt args.min_shard_count with
  | none => rw [hmin] at h; cases h
  | some minc =>
  rw [hmin] at h
  cases hmax : get_gb_size_from_string args.max_shard_size with
  | valueError => rw [hmax] at h; cases h
  | exitCrit =>
    rw [hmax] at h
    cases h
    right; rfl
  | ok maxs =>
  rw [hmax] at h
  cases fetch with
  | err => cases h
  | ok raw =>
  simp only [] at h
  cases hparse : parse_index_info raw with
  | none => rw [hparse] at h; cases h
  | some recs =>
  rw [hparse] at h
  simp only at h
  by_cases hact : args.action = actionSize
  · rw [if_pos hact] at h
    cases hconf : confirm_es_shard_size args.es_host args.es_port recs maxs with
    | ok failed =>
      rw [hconf] at h
      exact report_size_code showF args.es_index failed maxs c m h
    | exitWith c' m' =>
      rw [hconf] at h
      cases h
      right
      exact confirm_size_exit_code args.es_host args.es_port recs maxs _ _ hconf
    | exc => rw [hconf] at h; cases h
  · rw [if_neg hact] at h
    by_cases hact2 : args.action = actionCount
    · rw [if_pos hact2] at h
      cases hconf : confirm_es_shard_count args.es_host args.es_port recs minc with
      | ok failed =>
        rw [hconf] at h
        exact report_count_code args.es_index failed minc c m h
      | exitWith c' m' =>
        exact absurd hconf (fun hc =>
          confirm_count_no_exit args.es_host args.es_port recs minc c' m' hc)
      | exc => rw [hconf] at h; cases h
    · rw [if_neg hact2] at h
      cases h
      left; rfl

/-- Witness for the amended C6: a run on an empty catalog with the count
action exits explicitly, and its code is 0 or 2. -/
theorem claim_C6_exit_codes_amended_witness : (0 : ℕ) = 0 ∨ (0 : ℕ) = 2 :=
  claim_C6_exit_codes_amended (fun _ => []) ⟨("h").data, ("9200").data, [],
    actionCount, ("3").data, ("50gb").data⟩ (FetchResult.ok []) 0
    (okCntA ++ [] ++ okCntB ++ intToStr 3 ++ okCntC) (by decide)

/-! ### C8: pluralised CRITICAL messages -/

theorem hasSub_middle (a x b : List Char) : hasSub (a ++ (x ++ b)) x = true := by
  induction a with
  | nil =>
    rw [List.nil_append, hasSub.eq_def]
    simp [leadsWith_self_append]
  | cons c a' ih =>
    rw [List.cons_append, hasSub.eq_def]
    simp [ih]

theorem hasSub_tail (a x : List Char) : hasSub (a ++ x) x = true := by
  have := hasSub_middle a x []
  simpa using this

/-- C8: when at least one index violates the active threshold, the program
exits with the CRITICAL code 2 and prints a pluralised message: with exactly
one violating record the message names that index directly; with two or
more it contains the violator count and the offending names joined by
commas. -/
theorem claim_C8_pluralized_message (showF : ℚ → List Char) (args : Args)
    (raw : List Char) (recs : List IndexRecord) (failed : List (List Char))
    (minc : ℤ) (maxs : ℚ)
    (hmin : pyInt args.min_shard_count = some minc)
    (hmax : get_gb_size_from_string args.max_shard_size = GbResult.ok maxs)
    (hparse : parse_index_info raw = some recs)
    (hdisp : (args.action = actionSize ∧
        confirm_es_shard_size args.es_host args.es_port recs maxs =
          RunResult.ok failed) ∨
      (args.action = actionCount ∧
        confirm_es_shard_count args.es_host args.es_port recs minc =
          RunResult.ok failed))
    (hne : failed ≠ []) :
    ∃ msg,
      main_run showF args (FetchResult.ok raw) = MainResult.exited 2 msg ∧
      (failed.length = 1 → hasSub msg (failed.headD []) = true) ∧
      (2 ≤ failed.length →
        hasSub msg (natToStr failed.length) = true ∧
        hasSub msg (joinComma failed) = true) := by
  have hlen0 : failed.length ≠ 0 := by
    simpa [List.length_eq_zero] using hne
  rcases hdisp with ⟨hact, hconf⟩ | ⟨hact, hconf⟩
  · have hmr : main_run showF args (FetchResult.ok raw) =
        report_shard_size showF args.es_index failed maxs := by
      rw [main_run, hmin, hmax]
      simp only []
      rw [hparse]
      simp only []
      rw [if_pos hact, hconf]
    rw [hmr, report_shard_size, if_pos hlen0]
    refine ⟨_, rfl, ?_, ?_⟩
    · intro h1
      rw [if_pos h1]
      have := hasSub_middle critSize1a (failed.headD [])
        (critSize1b ++ (showF maxs ++ critSize1c))
      simpa [List.append_assoc] using this
    · intro h2
      have hne1 : ¬ failed.length = 1 := by omega
      have hgt : failed.length > 1 := by omega
      rw [if_neg hne1, if_pos hgt]
      constructor
      · have := hasSub_middle critSizeNa (natToStr failed.length)
          (critSizeNb ++ (showF maxs ++ (critSizeNc ++ joinComma failed)))
        simpa [List.append_assoc] using this
      · have := hasSub_tail (critSizeNa ++ (natToStr failed.length ++
          (critSizeNb ++ (showF maxs ++ critSizeNc)))) (joinComma failed)
        simpa [List.append_assoc] using this
  · have hmr : main_run showF args (FetchResult.ok raw) =
        report_shard_count args.es_index failed minc := by
      rw [main_run, hmin, hmax]
      simp only []
      rw [hparse]
      simp only []
      rw [if_neg (by rw [hact]; decide), if_pos hact, hconf]
    rw [hmr, report_shard_count, if_pos hlen0]
    refine ⟨_, rfl, ?_, ?_⟩
    · intro h1
      rw [if_pos h1]
      have := hasSub_middle critCnt1a (failed.headD [])
        (critCnt1b ++ (intToStr minc ++ critCnt1c))
      simpa [List.append_assoc] using this
    · intro h2
      have hne1 : ¬ failed.length = 1 := by omega
      have hgt : failed.length > 1 := by omega
      rw [if_neg hne1, if_pos hgt]
      constructor
      · have := hasSub_middle critCntNa (natToStr failed.length)
          (critCntNb ++ (intToStr minc ++ (critCntNc ++ joinComma failed)))
        simpa [List.append_assoc] using this
      · have := hasSub_tail (critCntNa ++ (natToStr failed.length ++
          (critCntNb ++ (intToStr minc ++ critCntNc)))) (joinComma failed)
        simpa [List.append_assoc] using this

/-- Witness for C8 on the spec's end-to-end example: a catalog of two
indices both below `min_shard_count = 3`, with the count action, exits 2
with a message containing the count and both names comma-joined. -/
theorem claim_C8_pluralized_message_witness :
    ∃ msg,
      main_run (fun _ => []) ⟨("h").data, ("9200").data, [], actionCount,
        ("3").data, ("50gb").data⟩
        (FetchResult.ok (("green open idx1 1 1 100 10gb 10gb 2020\ngreen open idx2 2 1 100 10gb 10gb 2020").data)) =
        MainResult.exited 2 msg ∧
      ([("idx1").data, ("idx2").data].length = 1 →
        hasSub msg ([("idx1").data, ("idx2").data].headD []) = true) ∧
      (2 ≤ [("idx1").data, ("idx2").data].length →
        hasSub msg (natToStr [("idx1").data, ("idx2").data].length) = true ∧
        hasSub msg (joinComma [("idx1").data, ("idx2").data]) = true) :=
  claim_C8_pluralized_message (fun _ => []) ⟨("h").data, ("9200").data, [],
    actionCount, ("3").data, ("50gb").data⟩
    (("green open idx1 1 1 100 10gb 10gb 2020\ngreen open idx2 2 1 100 10gb 10gb 2020").data)
    [⟨("idx1").data, ("1").data, ("10gb").data⟩,
     ⟨("idx2").data, ("2").data, ("10gb").data⟩]
    [("idx1").data, ("idx2").data] 3 50 (by decide) (by decide) (by decide)
    (Or.inr ⟨rfl, by decide⟩) (by decide)
